/-
  Verification of the RAG backend (src/backend/main.py) against its
  natural-language specification.

  Modelling conventions (shallow embedding):
  * Python `str` values are modelled as `List Char`; `len` is `List.length`,
    slicing `s[i:i+k]` is `(s.drop i).take k`, `"sep".join(xs)` is
    `List.intercalate`.
  * Python exceptions are modelled with `Except`: a `try/except` block is a
    `match` on the `Except` value produced by its body.  FastAPI's
    `HTTPException` is an ordinary Python `Exception` subclass, so a blanket
    `except Exception` catches it; the model reflects that.
  * Outbound network calls (Gemini embedding HTTP call, Qdrant search/upsert,
    Gemini generation, PDF text extraction) are external collaborators; each
    call's outcome is a parameter (an oracle) of the function that performs it.
  * Python's float division inside `math.ceil` is modelled as exact ceiling
    division on naturals; `math.ceil(a / b)` with `b = 0` raises
    `ZeroDivisionError` in Python, which the model renders as `Option.none`.
  * Similarity scores (Python floats that the code only passes through,
    never computes with) are modelled as exact rationals.
-/

import Mathlib

namespace RAG

/-- Ceiling division on naturals: the exact value of Python's
`math.ceil(a / b)` for `b > 0`. -/
def ceilDiv (a b : Nat) : Nat := (a + b - 1) / b

/-- Iteration core of `pyRange`, structurally recursive on a fuel argument so
that the kernel can evaluate it; `stop - start` units of fuel always suffice
for a positive step. -/
def pyRangeAux (fuel start stop step : Nat) : List Nat :=
  match fuel with
  | 0 => []
  | fuel + 1 =>
    if step = 0 then []
    else if stop ≤ start then []
    else start :: pyRangeAux fuel (start + step) stop step

/-- Python's `range(start, stop, step)` for a positive step (the only use in
the source is `range(0, text_length, adjusted_chunk_size)` in
`split_text_into_chunks`, src/backend/main.py line 157).  A zero step is
mapped to `[]` (never reached by the source). -/
def pyRange (start stop step : Nat) : List Nat :=
  pyRangeAux (stop - start) start stop step

/-- `pyRangeAux` does not depend on the fuel once the fuel is sufficient. -/
theorem pyRangeAux_congr (stop step : Nat) :
    ∀ f1 f2 start, stop - start ≤ f1 → stop - start ≤ f2 →
      pyRangeAux f1 start stop step = pyRangeAux f2 start stop step := by
  intro f1
  induction f1 with
  | zero =>
    intro f2 start h1 h2
    have hle : stop ≤ start := by omega
    cases f2 with
    | zero => rfl
    | succ f2 =>
      simp only [pyRangeAux]
      by_cases hz : step = 0
      · rw [if_pos hz]
      · rw [if_neg hz, if_pos hle]
  | succ f1 ih =>
    intro f2 start h1 h2
    cases f2 with
    | zero =>
      have hle : stop ≤ start := by omega
      simp only [pyRangeAux]
      by_cases hz : step = 0
      · rw [if_pos hz]
      · rw [if_neg hz, if_pos hle]
    | succ f2 =>
      simp only [pyRangeAux]
      by_cases hz : step = 0
      · rw [if_pos hz, if_pos hz]
      · rw [if_neg hz, if_neg hz]
        by_cases hle : stop ≤ start
        · rw [if_pos hle, if_pos hle]
        · rw [if_neg hle, if_neg hle]
          have : stop - (start + step) ≤ f1 := by omega
          have : stop - (start + step) ≤ f2 := by omega
          rw [ih f2 (start + step) (by omega) (by omega)]

/-- CHUNK_SIZE constant, src/backend/main.py line 42. -/
def CHUNK_SIZE : Nat := 5000

/-- Embedding of `split_text_into_chunks` (src/backend/main.py lines 150-158):

    def split_text_into_chunks(text, chunk_size=CHUNK_SIZE):
        text_length = len(text)
        num_chunks = math.ceil(text_length / chunk_size)
        adjusted_chunk_size = math.ceil(text_length / num_chunks)
        chunks = [text[i:i + adjusted_chunk_size]
                  for i in range(0, text_length, adjusted_chunk_size)]
        return chunks

`none` models a raised `ZeroDivisionError`: `chunk_size = 0` makes the first
`math.ceil` divide by zero, and `text = ""` makes `num_chunks = 0` so the
second `math.ceil` divides by zero. -/
def split_text_into_chunks (text : List Char) (chunk_size : Nat := CHUNK_SIZE) :
    Option (List (List Char)) :=
  let text_length := text.length
  if chunk_size = 0 then none
  else
    let num_chunks := ceilDiv text_length chunk_size
    if num_chunks = 0 then none
    else
      let adjusted_chunk_size := ceilDiv text_length num_chunks
      some ((pyRange 0 text_length adjusted_chunk_size).map
        (fun i => (text.drop i).take adjusted_chunk_size))

/-- Sequential chunking by `take`/`drop`: the recursive restatement of the
slice comprehension in `split_text_into_chunks`, used to reason about it
(`pyRange_slices_eq_chunkRec` proves the two agree). -/
def chunkRec (text : List Char) (step : Nat) : List (List Char) :=
  if _h : text = [] ∨ step = 0 then []
  else text.take step :: chunkRec (text.drop step) step
termination_by text.length
decreasing_by
  simp only [not_or] at _h
  have : 0 < text.length := List.length_pos.mpr _h.1
  simp only [List.length_drop]
  omega

theorem pyRange_stop_le (start stop step : Nat) (h : stop ≤ start) :
    pyRange start stop step = [] := by
  unfold pyRange
  have hz : stop - start = 0 := by omega
  rw [hz]
  rfl

theorem pyRange_unfold (start stop step : Nat) (h1 : step ≠ 0) (h2 : start < stop) :
    pyRange start stop step = start :: pyRange (start + step) stop step := by
  unfold pyRange
  obtain ⟨f, hf⟩ : ∃ f, stop - start = f + 1 := ⟨stop - start - 1, by omega⟩
  rw [hf]
  simp only [pyRangeAux]
  rw [if_neg h1, if_neg (by omega)]
  congr 1
  exact pyRangeAux_congr stop step f (stop - (start + step)) (start + step)
    (by omega) (le_refl _)

/-- Shifting both endpoints of a `pyRange` shifts every element. -/
theorem pyRange_shift (step k : Nat) (h : step ≠ 0) :
    ∀ start stop, pyRange (start + k) (stop + k) step =
      (pyRange start stop step).map (· + k) := by
  intro start stop
  by_cases h2 : stop ≤ start
  · rw [pyRange_stop_le _ _ _ (by omega), pyRange_stop_le _ _ _ h2]
    rfl
  · push_neg at h2
    rw [pyRange_unfold _ _ _ h (by omega), pyRange_unfold _ _ _ h h2]
    have ih := pyRange_shift step k h (start + step) stop
    simp only [List.map_cons]
    congr 1
    have heq : start + k + step = start + step + k := by omega
    rw [heq, ih]
termination_by start stop => stop - start
decreasing_by omega

theorem pyRange_shift0 (step k m : Nat) (h : step ≠ 0) :
    pyRange k (m + k) step = (pyRange 0 m step).map (· + k) := by
  have hgen := pyRange_shift step k h 0 m
  simpa using hgen

/-- The slice comprehension of `split_text_into_chunks` computes sequential
chunking. -/
theorem pyRange_slices_eq_chunkRec (step : Nat) (hs : step ≠ 0) :
    ∀ text : List Char,
      (pyRange 0 text.length step).map (fun i => (text.drop i).take step) =
        chunkRec text step := by
  intro text
  by_cases hnil : text = []
  · subst hnil
    rw [chunkRec.eq_def]
    simp [pyRange_stop_le]
  · have hlen : 0 < text.length := List.length_pos.mpr hnil
    rw [chunkRec.eq_def, dif_neg (not_or.mpr ⟨hnil, hs⟩)]
    rw [pyRange_unfold _ _ _ hs hlen, List.map_cons]
    simp only [List.drop_zero, Nat.zero_add]
    congr 1
    by_cases hsmall : text.length ≤ step
    · rw [pyRange_stop_le _ _ _ hsmall]
      have hdrop : text.drop step = [] := List.drop_eq_nil_of_le hsmall
      rw [hdrop, chunkRec.eq_def]
      simp
    · push_neg at hsmall
      have hrw : text.length = (text.length - step) + step := by omega
      rw [hrw, pyRange_shift0 step step (text.length - step) hs]
      rw [List.map_map]
      have hlen2 : (text.drop step).length = text.length - step := by
        simp [List.length_drop]
      have ih := pyRange_slices_eq_chunkRec step hs (text.drop step)
      rw [hlen2] at ih
      rw [← ih]
      apply List.map_congr_left
      intro i _hi
      simp only [Function.comp_apply]
      rw [List.drop_drop]
      have h3 : step + i = i + step := by omega
      rw [h3]
termination_by text => text.length
decreasing_by
  have : 0 < text.length := List.length_pos.mpr hnil
  simp only [List.length_drop]
  omega

/-- Concatenating the sequential chunks reproduces the text. -/
theorem chunkRec_flatten (step : Nat) (hs : step ≠ 0) :
    ∀ text : List Char, (chunkRec text step).flatten = text := by
  intro text
  by_cases hnil : text = []
  · subst hnil
    rw [chunkRec.eq_def]
    simp
  · rw [chunkRec.eq_def, dif_neg (not_or.mpr ⟨hnil, hs⟩)]
    rw [List.flatten_cons, chunkRec_flatten step hs (text.drop step)]
    exact List.take_append_drop step text
termination_by text => text.length
decreasing_by
  have : 0 < text.length := List.length_pos.mpr hnil
  simp only [List.length_drop]
  omega

/-- Every sequential chunk has length at most the step. -/
theorem chunkRec_length_le (step : Nat) :
    ∀ text : List Char, ∀ c ∈ chunkRec text step, c.length ≤ step := by
  intro text c hc
  by_cases hguard : text = [] ∨ step = 0
  · rw [chunkRec.eq_def, dif_pos hguard] at hc
    exact absurd hc (List.not_mem_nil c)
  · rw [chunkRec.eq_def, dif_neg hguard, List.mem_cons] at hc
    rcases hc with hc | hc
    · subst hc
      simp [List.length_take]
    · push_neg at hguard
      exact chunkRec_length_le step (text.drop step) c hc
termination_by text => text.length
decreasing_by
  have : 0 < text.length := List.length_pos.mpr (not_or.mp hguard).1
  simp only [List.length_drop]
  omega

/-- Chunking text that already fits in one step yields that text alone. -/
theorem chunkRec_small (step : Nat) (text : List Char) (hnil : text ≠ [])
    (hs : step ≠ 0) (hle : text.length ≤ step) :
    chunkRec text step = [text] := by
  rw [chunkRec.eq_def, dif_neg (not_or.mpr ⟨hnil, hs⟩)]
  rw [List.take_of_length_le hle, List.drop_eq_nil_of_le hle, chunkRec.eq_def]
  simp

theorem ceilDiv_pos (a b : Nat) (ha : 0 < a) (hb : 0 < b) : 0 < ceilDiv a b := by
  unfold ceilDiv
  exact Nat.div_pos (by omega) hb

theorem ceilDiv_eq_one (a b : Nat) (ha : 0 < a) (hab : a ≤ b) :
    ceilDiv a b = 1 := by
  unfold ceilDiv
  apply Nat.div_eq_of_lt_le
  · omega
  · omega

theorem ceilDiv_one (a : Nat) : ceilDiv a 1 = a := by
  unfold ceilDiv
  simp

/-- On non-empty text and positive chunk size, `split_text_into_chunks`
returns the sequential chunking at the adjusted chunk size. -/
theorem split_eq_chunkRec (text : List Char) (cs : Nat)
    (hnil : text ≠ []) (hcs : 0 < cs) :
    split_text_into_chunks text cs =
      some (chunkRec text (ceilDiv text.length (ceilDiv text.length cs))) := by
  have hlen : 0 < text.length := List.length_pos.mpr hnil
  have hnum : 0 < ceilDiv text.length cs := ceilDiv_pos _ _ hlen hcs
  have hadj : 0 < ceilDiv text.length (ceilDiv text.length cs) :=
    ceilDiv_pos _ _ hlen hnum
  simp only [split_text_into_chunks]
  rw [if_neg (by omega), if_neg (by omega)]
  congr 1
  exact pyRange_slices_eq_chunkRec _ (by omega) text

/-- C5: for every non-empty input text and every positive target chunk size,
concatenating the chunker's output sequence in order reproduces the input
exactly, and no produced chunk's length exceeds
`ceil(length / ceil(length / target_size))`. -/
theorem split_text_concat_and_bound (text : List Char) (cs : Nat)
    (hnil : text ≠ []) (hcs : 0 < cs) :
    ∃ chunks, split_text_into_chunks text cs = some chunks ∧
      chunks.flatten = text ∧
      ∀ c ∈ chunks, c.length ≤ ceilDiv text.length (ceilDiv text.length cs) := by
  have hlen : 0 < text.length := List.length_pos.mpr hnil
  have hnum : 0 < ceilDiv text.length cs := ceilDiv_pos _ _ hlen hcs
  have hadj : 0 < ceilDiv text.length (ceilDiv text.length cs) :=
    ceilDiv_pos _ _ hlen hnum
  exact ⟨_, split_eq_chunkRec text cs hnil hcs,
    chunkRec_flatten _ (by omega) text, chunkRec_length_le _ text⟩

theorem split_text_concat_and_bound_witness :
    ("abcdefg".data ≠ [] ∧ 0 < 3) ∧
      ∃ chunks, split_text_into_chunks "abcdefg".data 3 = some chunks ∧
        chunks.flatten = "abcdefg".data ∧
        ∀ c ∈ chunks,
          c.length ≤ ceilDiv "abcdefg".data.length
            (ceilDiv "abcdefg".data.length 3) :=
  ⟨⟨by decide, by decide⟩,
    split_text_concat_and_bound "abcdefg".data 3 (by decide) (by decide)⟩

/-- C7 (chunker idempotence): for every non-empty text whose length is at most
the positive target chunk size, the chunker yields exactly one chunk equal to
the whole input text. -/
theorem split_text_small_single_chunk (text : List Char) (cs : Nat)
    (hnil : text ≠ []) (hcs : 0 < cs) (hle : text.length ≤ cs) :
    split_text_into_chunks text cs = some [text] := by
  have hlen : 0 < text.length := List.length_pos.mpr hnil
  rw [split_eq_chunkRec text cs hnil hcs]
  rw [ceilDiv_eq_one text.length cs hlen hle, ceilDiv_one]
  rw [chunkRec_small text.length text hnil (by omega) (le_refl _)]

theorem split_text_small_single_chunk_witness :
    ("hi".data ≠ [] ∧ 0 < 5 ∧ "hi".data.length ≤ 5) ∧
      split_text_into_chunks "hi".data 5 = some ["hi".data] :=
  ⟨⟨by decide, by decide, by decide⟩,
    split_text_small_single_chunk "hi".data 5 (by decide) (by decide) (by decide)⟩

/-- C2 (amended): the chunking function terminates without error on every
non-empty string with a positive target chunk size; on the empty string it
raises `ZeroDivisionError` (modelled as `none`) instead of returning the
empty sequence, because `num_chunks = 0` there. -/
theorem split_text_total_on_nonempty :
    (∀ (text : List Char) (cs : Nat), text ≠ [] → 0 < cs →
      (split_text_into_chunks text cs).isSome = true) ∧
    ∀ cs : Nat, split_text_into_chunks [] cs = none := by
  constructor
  · intro text cs hnil hcs
    rw [split_eq_chunkRec text cs hnil hcs]
    rfl
  · intro cs
    by_cases hcs : cs = 0
    · subst hcs
      rfl
    · simp only [split_text_into_chunks, List.length_nil]
      rw [if_neg hcs]
      have hz : ceilDiv 0 cs = 0 := by
        unfold ceilDiv
        simp only [Nat.zero_add]
        exact Nat.div_eq_of_lt (by omega)
      rw [if_pos hz]

theorem split_text_total_on_nonempty_witness :
    ("ab".data ≠ [] ∧ 0 < 5000) ∧
      (split_text_into_chunks "ab".data 5000).isSome = true :=
  ⟨⟨by decide, by decide⟩,
    split_text_total_on_nonempty.1 "ab".data 5000 (by decide) (by decide)⟩

/-- C2 (counterexample): on the empty string with the source's default chunk
size, `split_text_into_chunks` raises `ZeroDivisionError` (`none` in the
model) rather than returning the empty sequence of chunks. -/
theorem split_text_empty_input_zero_division :
    split_text_into_chunks [] CHUNK_SIZE = none ∧
      split_text_into_chunks [] CHUNK_SIZE ≠ some [] := by
  exact ⟨rfl, by decide⟩

/-- FastAPI / Starlette `HTTPException`.  It subclasses Python `Exception`,
so a blanket `except Exception` catches it. -/
structure HTTPException where
  status_code : Nat
  detail : List Char
deriving DecidableEq

/-- Python `str(e)` for an `HTTPException`, which Starlette renders as
`f"{self.status_code}: {self.detail}"`. -/
def pyStrExn (e : HTTPException) : List Char :=
  (Nat.repr e.status_code).data ++ ": ".data ++ e.detail

/-- Outcome of the one outbound HTTP call made by `get_gemini_embedding`
(src/backend/main.py lines 70-74): `client.post` may raise (network
failure), `response.raise_for_status()` raises on a non-2xx status, and
`response.json()["embedding"]["values"]` raises on a malformed body. -/
inductive EmbedCallOutcome where
  | requestError (msg : List Char)
  | httpStatusError (status : Nat) (msg : List Char)
  | malformedBody (msg : List Char)
  | success (values : List ℚ)
deriving DecidableEq

/-- Embedding of `get_gemini_embedding` (src/backend/main.py lines 55-77).
The `try` body returns the parsed embedding values; `except Exception`
only prints the error, so on every failure the function falls through and
returns Python `None` (modelled as `none`). -/
def get_gemini_embedding : EmbedCallOutcome → Option (List ℚ)
  | .success values => some values
  | .requestError _ => none
  | .httpStatusError _ _ => none
  | .malformedBody _ => none

/-- A Qdrant search hit as used by `search_document`: `hit.id`, `hit.score`,
and `hit.payload`, a string-keyed dictionary (this backend only ever stores
the string field `content`, src/backend/main.py line 108). -/
structure Hit where
  id : List Char
  score : ℚ
  payload : List (List Char × List Char)
deriving DecidableEq

/-- Python `dict.get(key, default)` on a payload dictionary. -/
def pyDictGet (d : List (List Char × List Char)) (key dflt : List Char) :
    List Char :=
  match d.find? (fun kv => kv.1 == key) with
  | some kv => kv.2
  | none => dflt

/-- One entry of the `results` list built by `search_document`
(src/backend/main.py lines 137-144). -/
structure SearchItem where
  id : List Char
  score : ℚ
  content : List Char
deriving DecidableEq

/-- The dictionary built for one hit (src/backend/main.py lines 138-142):
`content` falls back to the empty string when the payload lacks the key. -/
def mkSearchItem (h : Hit) : SearchItem :=
  ⟨h.id, h.score, pyDictGet h.payload "content".data "".data⟩

/-- FastAPI's documented validation of the declared query parameter
`limit: int = Query(5, gt=0, le=50)` (src/backend/main.py line 128): an
omitted parameter takes the default 5; a supplied value is rejected with a
422 validation error unless `0 < limit` and `limit ≤ 50`. -/
def validate_limit : Option Int → Except (List Char) Int
  | none => Except.ok 5
  | some l =>
    if 0 < l ∧ l ≤ 50 then Except.ok l
    else Except.error "Input should be in the range 1..50".data

/-- Embedding of the `search_document` handler body (src/backend/main.py
lines 125-147).  `embedOutcome` is the outcome of the Gemini embedding
call; `searchOutcome` maps the query vector passed to `qdrant.search`
(possibly Python `None` when the embedding call failed) to that call's
outcome — a hit list, or a raised exception rendered by `str`.  Any raised
exception is turned into `HTTPException(500, f"Search failed: {e}")`. -/
def search_document (embedOutcome : EmbedCallOutcome)
    (searchOutcome : Option (List ℚ) → Except (List Char) (List Hit)) :
    Except HTTPException (List SearchItem) :=
  match searchOutcome (get_gemini_embedding embedOutcome) with
  | Except.error e => Except.error ⟨500, "Search failed: ".data ++ e⟩
  | Except.ok hits => Except.ok (hits.map mkSearchItem)

/-- Embedding of `search_top_documents` (src/backend/main.py lines 206-212):
`resp` is the value of (or exception raised by) the awaited
`search_document` call; the comprehension
`[doc["content"] for doc in search_response["results"] if doc["content"]]`
keeps, in order, the non-empty `content` fields.  A raised exception is
turned into `HTTPException(500, f"Document search failed: {e}")`. -/
def search_top_documents (resp : Except HTTPException (List SearchItem)) :
    Except HTTPException (List (List Char)) :=
  match resp with
  | Except.error e =>
      Except.error ⟨500, "Document search failed: ".data ++ pyStrExn e⟩
  | Except.ok results =>
      Except.ok ((results.filter (fun d => !d.content.isEmpty)).map
        (fun d => d.content))

/-- The f-string prompt constructed in `ask_question` (src/backend/main.py
lines 282-292), with its literal whitespace. -/
def build_prompt (context_text question : List Char) : List Char :=
  "You are a helpful assistant. Use the following context to answer the question:\n\n            Context:\n            ".data
    ++ context_text
    ++ "\n\n            Question:\n            ".data
    ++ question
    ++ "\n           \n            Guardrails:\n            Answer should be less than 100 words.\n        ".data

/-- Embedding of the `ask_question` handler (src/backend/main.py lines
267-301).  `retrieval` is the value of (or exception raised by) the awaited
`search_top_documents` call; `generation` maps the prompt sent to
`generate_answer_with_gemini` to that call's outcome.  The second component
of the result records the prompts actually sent to the generation service.
The `try` body's own `raise HTTPException(status_code=404, ...)` raises an
`Exception`, so the handler's blanket `except Exception` catches it and
raises `HTTPException(500, f"Answering failed: {e}")` instead. -/
def ask_question (retrieval : Except HTTPException (List (List Char)))
    (generation : List Char → Except HTTPException (List Char))
    (question : List Char) :
    Except HTTPException (List Char × List Char) × List (List Char) :=
  let inner : Except HTTPException (List Char × List Char) × List (List Char) :=
    match retrieval with
    | Except.error e => (Except.error e, [])
    | Except.ok top_docs =>
      if top_docs = [] then
        (Except.error ⟨404, "No relevant documents found.".data⟩, [])
      else
        let context_text := List.intercalate "\n\n".data top_docs
        let prompt := build_prompt context_text question
        match generation prompt with
        | Except.error e => (Except.error e, [prompt])
        | Except.ok answer => (Except.ok (question, answer), [prompt])
  match inner with
  | (Except.ok r, ps) => (Except.ok r, ps)
  | (Except.error e, ps) =>
      (Except.error ⟨500, "Answering failed: ".data ++ pyStrExn e⟩, ps)

deriving instance DecidableEq for Except

/-- One uploaded file as seen by `upload_pdfs`: its filename, and the outcome
of `await file.read()` plus PyMuPDF page-text extraction (src/backend/main.py
lines 170-175) — the concatenated page text, or a raised exception rendered
by `str`. -/
structure PFile where
  filename : List Char
  extraction : Except (List Char) (List Char)
deriving DecidableEq

/-- Python whitespace, as stripped by `str.strip()` (ASCII range; all
concrete inputs used below are ASCII). -/
def isPySpace (c : Char) : Bool :=
  c == ' ' || c == '\t' || c == '\n' || c == '\r' || c == '\x0b' || c == '\x0c'

/-- Python `str.strip()`. -/
def pyStrip (s : List Char) : List Char :=
  ((s.dropWhile isPySpace).reverse.dropWhile isPySpace).reverse

/-- Python `str.lower()` (ASCII range). -/
def pyLower (s : List Char) : List Char := s.map Char.toLower

/-- One per-file entry of the `/upload_pdfs` response: a success summary
(src/backend/main.py lines 193-198) or an error entry (lines 167, 178,
201). -/
inductive FileReport where
  | success (filename : List Char) (chunks_uploaded : Nat)
      (chunks : List (Nat × List Char))
  | failure (filename : List Char) (error : List Char)
deriving DecidableEq

/-- The filename named by a per-file report. -/
def FileReport.filename : FileReport → List Char
  | .success fn _ _ => fn
  | .failure fn _ => fn

/-- The per-file chunk loop of `upload_pdfs` (src/backend/main.py lines
183-191).  `ingest` maps a chunk's content to the outcome of
`await add_document(DocumentInput(content=chunk))` — the fresh id from the
returned `{"status", "id"}` record, or the `HTTPException(500,
f"Error adding document: {e}")` that `add_document` raises on any internal
failure (line 121).  The first raised exception propagates out of the loop,
abandoning the remaining chunks, to the per-file `except` handler. -/
def upload_chunks (ingest : List Char → Except HTTPException (List Char)) :
    List (List Char) → Nat → Except HTTPException (List (Nat × List Char))
  | [], _ => Except.ok []
  | chunk :: rest, idx =>
    match ingest chunk with
    | Except.error e => Except.error e
    | Except.ok chunk_id =>
      match upload_chunks ingest rest (idx + 1) with
      | Except.error e => Except.error e
      | Except.ok tail => Except.ok ((idx, chunk_id) :: tail)

/-- The per-file `try/except` body of `upload_pdfs` (src/backend/main.py
lines 164-201).  The `none` branch of the chunker is Python's rendering of
an uncaught `ZeroDivisionError` (unreachable here: the `strip()` guard makes
`full_text` non-empty). -/
def process_file (ingest : List Char → Except HTTPException (List Char))
    (f : PFile) : FileReport :=
  if !(".pdf".data.isSuffixOf (pyLower f.filename)) then
    FileReport.failure f.filename "Only PDF files are supported.".data
  else
    match f.extraction with
    | Except.error e => FileReport.failure f.filename e
    | Except.ok full_text =>
      if pyStrip full_text = [] then
        FileReport.failure f.filename "No readable text found in PDF.".data
      else
        match split_text_into_chunks full_text CHUNK_SIZE with
        | none => FileReport.failure f.filename "division by zero".data
        | some chunks =>
          match upload_chunks ingest chunks 0 with
          | Except.error e => FileReport.failure f.filename (pyStrExn e)
          | Except.ok chunk_results =>
            FileReport.success f.filename chunk_results.length chunk_results

/-- The file loop of `upload_pdfs` (src/backend/main.py lines 161-203):
`responses` accumulates one report per file, in order. -/
def upload_pdfs (ingest : List Char → Except HTTPException (List Char)) :
    List PFile → List FileReport
  | [] => []
  | f :: rest => process_file ingest f :: upload_pdfs ingest rest

/-- C1 (behaviour of the code at the failing input): when retrieval succeeds
with zero documents, `ask_question` raises `HTTPException(404, "No relevant
documents found.")` inside its own `try`, the blanket `except Exception`
catches that very exception, and the caller receives HTTP 500 with detail
`"Answering failed: 404: No relevant documents found."` — not the HTTP 404
the spec promises.  The generation service is not called (the recorded
prompt list is empty). -/
theorem ask_question_zero_docs_yields_500
    (gen : List Char → Except HTTPException (List Char)) (q : List Char) :
    ask_question (search_top_documents (Except.ok [])) gen q =
      (Except.error
        ⟨500, "Answering failed: 404: No relevant documents found.".data⟩,
       []) := rfl

/-- C3 (behaviour of the code): every failure of the embedding call —
network failure, non-2xx response, malformed response body — is swallowed
by the `except` block of `get_gemini_embedding`, which only prints it; the
function then returns Python `None` as a normal value instead of surfacing
an `EmbeddingFailure`-kind error to the caller. -/
theorem get_gemini_embedding_swallows_failures :
    (∀ msg, get_gemini_embedding (.requestError msg) = none) ∧
    (∀ status msg, get_gemini_embedding (.httpStatusError status msg) = none) ∧
    (∀ msg, get_gemini_embedding (.malformedBody msg) = none) :=
  ⟨fun _ => rfl, fun _ _ => rfl, fun _ => rfl⟩

/-- C6: on a successful search, `search_top_documents` returns exactly the
content strings of the results whose content is non-empty, in their original
order; the kept results form a sublist of the result sequence, so when the
results are ordered by descending similarity score, so are the kept ones. -/
theorem search_top_documents_filters_empty (results : List SearchItem)
    (hsorted : results.Pairwise (fun a b => b.score ≤ a.score)) :
    search_top_documents (Except.ok results) =
      Except.ok ((results.filter (fun d => !d.content.isEmpty)).map
        (fun d => d.content)) ∧
    List.Sublist (results.filter (fun d => !d.content.isEmpty)) results ∧
    (results.filter (fun d => !d.content.isEmpty)).Pairwise
      (fun a b => b.score ≤ a.score) ∧
    ∀ d ∈ results.filter (fun d => !d.content.isEmpty), d.content ≠ [] := by
  refine ⟨rfl, List.filter_sublist results, ?_, ?_⟩
  · exact List.Pairwise.sublist (List.filter_sublist results) hsorted
  · intro d hd
    have hp := List.of_mem_filter hd
    simpa using hp

/-- Concrete result list for the C6 witness: two results in descending score
order, the second with empty content. -/
def wResults : List SearchItem :=
  [⟨"i1".data, 2, "alpha".data⟩, ⟨"i2".data, 1, []⟩]

theorem search_top_documents_filters_empty_witness :
    wResults.Pairwise (fun a b => b.score ≤ a.score) ∧
      search_top_documents (Except.ok wResults) =
        Except.ok ((wResults.filter (fun d => !d.content.isEmpty)).map
          (fun d => d.content)) :=
  ⟨by decide, (search_top_documents_filters_empty wResults (by decide)).1⟩

/-- C9: an omitted `limit` defaults to 5; a supplied `limit` is accepted
exactly when it lies in 1..50 — in particular 0 and 51 are rejected as
invalid input and 50 is accepted. -/
theorem validate_limit_bounds :
    (∀ l : Int, (validate_limit (some l)).isOk = true ↔ 1 ≤ l ∧ l ≤ 50) ∧
    validate_limit none = Except.ok 5 ∧
    (validate_limit (some 0)).isOk = false ∧
    (validate_limit (some 51)).isOk = false ∧
    validate_limit (some 50) = Except.ok 50 := by
  refine ⟨?_, rfl, by decide, by decide, by decide⟩
  intro l
  simp only [validate_limit]
  by_cases h : 0 < l ∧ l ≤ 50
  · rw [if_pos h]
    simp only [Except.isOk]
    constructor
    · intro
      omega
    · intro
      rfl
  · rw [if_neg h]
    simp only [Except.isOk]
    constructor
    · intro hfalse
      cases hfalse
    · intro hrange
      omega

/-- Concrete hit list for the C10 witness: one hit whose payload has no
`content` key. -/
def wHits : List Hit := [⟨"h1".data, 1, [("other".data, "v".data)]⟩]

/-- C10: a search hit whose stored payload lacks the `content` key is still
included in the `search_document` results at its position, with its id and
score and with content equal to the empty string (neither omitted nor an
error); consequently the content list used for answer synthesis, which keeps
only non-empty contents, excludes it. -/
theorem missing_content_key_included_then_filtered
    (eo : EmbedCallOutcome) (hits : List Hit) (i : Nat) (h : i < hits.length)
    (hk : hits[i].payload.find? (fun kv => kv.1 == "content".data) = none) :
    search_document eo (fun _ => Except.ok hits) =
      Except.ok (hits.map mkSearchItem) ∧
    (hits.map mkSearchItem).length = hits.length ∧
    (hits.map mkSearchItem)[i]? = some ⟨hits[i].id, hits[i].score, []⟩ ∧
    mkSearchItem hits[i] ∉
      (hits.map mkSearchItem).filter (fun d => !d.content.isEmpty) ∧
    search_top_documents (Except.ok (hits.map mkSearchItem)) =
      Except.ok (((hits.map mkSearchItem).filter
        (fun d => !d.content.isEmpty)).map (fun d => d.content)) := by
  have hcontent : mkSearchItem hits[i] = ⟨hits[i].id, hits[i].score, []⟩ := by
    unfold mkSearchItem pyDictGet
    rw [hk]
  refine ⟨rfl, by simp, ?_, ?_, rfl⟩
  · rw [List.getElem?_map, List.getElem?_eq_getElem h]
    show some (mkSearchItem hits[i]) = some ⟨hits[i].id, hits[i].score, []⟩
    rw [hcontent]
  · intro hmem
    have hp := List.of_mem_filter hmem
    have hc2 : (mkSearchItem hits[i]).content = [] :=
      congrArg SearchItem.content hcontent
    simp only [hc2, List.isEmpty_nil, Bool.not_true] at hp
    cases hp

/-- C4 (amended): `upload_pdfs` produces exactly one report per file, in
order, each computed from that file alone — so one file's failure cannot
affect any other file's report — and each report is either a success summary
or an error entry naming the file's filename; but within one file, a chunk
failure raises out of the chunk loop, abandoning the remaining chunks, and
the whole file is reported as a single error entry. -/
theorem upload_pdfs_per_file_reports
    (ingest : List Char → Except HTTPException (List Char))
    (files : List PFile) :
    upload_pdfs ingest files = files.map (process_file ingest) ∧
    (∀ f ∈ files, (process_file ingest f).filename = f.filename) ∧
    (∀ (chunk : List Char) (rest : List (List Char)) (idx : Nat)
        (e : HTTPException), ingest chunk = Except.error e →
      upload_chunks ingest (chunk :: rest) idx = Except.error e) := by
  refine ⟨?_, ?_, ?_⟩
  · induction files with
    | nil => rfl
    | cons f rest ih => simp [upload_pdfs, ih]
  · intro f _
    unfold process_file
    repeat' split
    all_goals rfl
  · intro chunk rest idx e he
    simp only [upload_chunks, he]

/-- Ingestion oracle for the C4 witness: `add_document` fails on the chunk
`"x"` and succeeds, with fresh id `"id7"`, on everything else. -/
def wIngest : List Char → Except HTTPException (List Char) :=
  fun c =>
    if c = "x".data then
      Except.error ⟨500, "Error adding document: boom".data⟩
    else Except.ok "id7".data

/-- Files for the C4 witness: a non-PDF file and a PDF whose extraction
raises. -/
def wFiles : List PFile :=
  [⟨"a.txt".data, Except.ok "hello".data⟩,
   ⟨"b.pdf".data, Except.error "cannot open broken document".data⟩]

theorem upload_pdfs_per_file_reports_witness :
    upload_pdfs wIngest wFiles = wFiles.map (process_file wIngest) ∧
      wIngest "x".data =
        Except.error ⟨500, "Error adding document: boom".data⟩ ∧
      upload_chunks wIngest ["x".data, "y".data] 0 =
        Except.error ⟨500, "Error adding document: boom".data⟩ :=
  ⟨(upload_pdfs_per_file_reports wIngest wFiles).1,
   by decide,
   (upload_pdfs_per_file_reports wIngest wFiles).2.2 "x".data ["y".data] 0 _
     (by decide)⟩

/-- Ingestion oracle for the C4 counterexample: `add_document` fails on the
first chunk (the one of length 2501) and would succeed on any other chunk. -/
def cexIngest : List Char → Except HTTPException (List Char) :=
  fun c =>
    if c.length = 2501 then
      Except.error ⟨500, "Error adding document: boom".data⟩
    else Except.ok "id2".data

/-- The single uploaded file of the C4 counterexample: a PDF whose extracted
text is 5001 copies of `a`, which the chunker splits into a 2501-character
chunk followed by a 2500-character chunk. -/
def cexFile : PFile := ⟨"a.pdf".data, Except.ok (List.replicate 5001 'a')⟩

theorem pyStrip_replicate_a (n : Nat) :
    pyStrip (List.replicate n 'a') = List.replicate n 'a' := by
  unfold pyStrip
  rw [List.dropWhile_replicate, if_neg (by decide), List.reverse_replicate,
    List.dropWhile_replicate, if_neg (by decide), List.reverse_replicate]

theorem cex_split :
    split_text_into_chunks (List.replicate 5001 'a') CHUNK_SIZE =
      some [List.replicate 2501 'a', List.replicate 2500 'a'] := by
  have hne : (List.replicate 5001 'a') ≠ [] := by
    rw [Ne, List.replicate_eq_nil_iff]
    omega
  have hne2 : (List.replicate 2500 'a') ≠ [] := by
    rw [Ne, List.replicate_eq_nil_iff]
    omega
  have hlen2 : (List.replicate 2500 'a').length ≤ 2501 := by
    rw [List.length_replicate]
    omega
  rw [split_eq_chunkRec _ _ hne (by decide)]
  rw [List.length_replicate]
  have h2 : ceilDiv 5001 (ceilDiv 5001 CHUNK_SIZE) = 2501 := by decide
  rw [h2]
  rw [chunkRec.eq_def, dif_neg (not_or.mpr ⟨hne, by decide⟩)]
  rw [List.take_replicate, List.drop_replicate]
  norm_num
  rw [chunkRec_small 2501 (List.replicate 2500 'a') hne2 (by decide) hlen2]

theorem cex_upload_chunks :
    upload_chunks cexIngest
        [List.replicate 2501 'a', List.replicate 2500 'a'] 0 =
      Except.error ⟨500, "Error adding document: boom".data⟩ := by
  have h : cexIngest (List.replicate 2501 'a') =
      Except.error ⟨500, "Error adding document: boom".data⟩ := by
    unfold cexIngest
    rw [if_pos (by rw [List.length_replicate])]
  simp only [upload_chunks, h]

/-- C4 (counterexample): with one uploaded PDF that splits into two chunks,
the failure of `add_document` on the first chunk makes the whole file one
error entry — the second chunk, on which `add_document` would have
succeeded, is never processed, so a chunk's failure does prevent processing
of the subsequent chunks of its file. -/
theorem upload_pdfs_chunk_failure_aborts_file :
    upload_pdfs cexIngest [cexFile] =
      [FileReport.failure "a.pdf".data
        "500: Error adding document: boom".data] ∧
    cexIngest (List.replicate 2500 'a') = Except.ok "id2".data := by
  constructor
  · have hsuf : (".pdf".data.isSuffixOf (pyLower "a.pdf".data)) = true := by
      decide
    simp only [upload_pdfs, process_file, cexFile, hsuf, Bool.not_true,
      Bool.false_eq_true, if_false, pyStrip_replicate_a,
      List.replicate_eq_nil_iff, cex_split, cex_upload_chunks]
    decide
  · unfold cexIngest
    rw [if_neg (by rw [List.length_replicate]; omega)]

theorem intercalate_cons₂ (sep x y : List Char) (l : List (List Char)) :
    List.intercalate sep (x :: y :: l) =
      x ++ sep ++ List.intercalate sep (y :: l) := by
  simp [List.intercalate, List.append_assoc]

theorem intercalate_singleton_eq (sep d : List Char) :
    List.intercalate sep [d] = d := by
  simp [List.intercalate]

/-- The length of a `"sep".join`: the sum of the piece lengths plus one
separator between consecutive pieces — nothing is dropped. -/
theorem intercalate_length (sep : List Char) :
    ∀ docs : List (List Char), docs ≠ [] →
      (List.intercalate sep docs).length =
        (docs.map List.length).sum + sep.length * (docs.length - 1)
  | [], h => absurd rfl h
  | [d], _ => by
    simp [intercalate_singleton_eq]
  | d1 :: d2 :: rest, _ => by
    rw [intercalate_cons₂]
    have ih := intercalate_length sep (d2 :: rest) (by simp)
    simp only [List.length_append, ih, List.map_cons, List.sum_cons,
      List.length_cons, Nat.add_sub_cancel]
    ring

/-- Every piece appears intact inside the `"sep".join`. -/
theorem intercalate_contains_each (sep : List Char) :
    ∀ (docs : List (List Char)) (d : List Char), d ∈ docs →
      ∃ s t, s ++ d ++ t = List.intercalate sep docs
  | [], d, hd => absurd hd (List.not_mem_nil d)
  | [x], d, hd => by
    rw [List.mem_singleton] at hd
    subst hd
    exact ⟨[], [], by simp [intercalate_singleton_eq]⟩
  | x :: y :: rest, d, hd => by
    rw [List.mem_cons] at hd
    rcases hd with hd | hd
    · subst hd
      refine ⟨[], sep ++ List.intercalate sep (y :: rest), ?_⟩
      rw [intercalate_cons₂]
      simp [List.append_assoc]
    · obtain ⟨s, t, hst⟩ := intercalate_contains_each sep (y :: rest) d hd
      refine ⟨x ++ sep ++ s, t, ?_⟩
      rw [intercalate_cons₂, ← hst]
      simp [List.append_assoc]

/-- C8: for every non-empty retrieval result, `ask_question` sends the
generation service exactly one prompt, whose context block is the retrieved
contents joined in ranked order by a blank line (`"\n\n".join`); the
context's length is exactly the sum of the content lengths plus two
characters per separator, and every content appears in it intact — no
truncation and no enforced maximum context length. -/
theorem ask_question_context_untruncated (docs : List (List Char))
    (gen : List Char → Except HTTPException (List Char)) (q : List Char)
    (hne : docs ≠ []) :
    (ask_question (Except.ok docs) gen q).2 =
      [build_prompt (List.intercalate "\n\n".data docs) q] ∧
    (List.intercalate "\n\n".data docs).length =
      (docs.map List.length).sum + 2 * (docs.length - 1) ∧
    ∀ d ∈ docs, ∃ s t, s ++ d ++ t = List.intercalate "\n\n".data docs := by
  refine ⟨?_, ?_, fun d hd => intercalate_contains_each _ docs d hd⟩
  · simp only [ask_question]
    rw [if_neg hne]
    cases hgen : gen (build_prompt (List.intercalate "\n\n".data docs) q) with
    | error e => rfl
    | ok a => rfl
  · have h := intercalate_length "\n\n".data docs hne
    simpa using h

theorem ask_question_context_untruncated_witness :
    (["ab".data, "cde".data] ≠ ([] : List (List Char))) ∧
      (ask_question (Except.ok ["ab".data, "cde".data])
          (fun _ => Except.ok "ans".data) "q".data).2 =
        [build_prompt (List.intercalate "\n\n".data ["ab".data, "cde".data])
          "q".data] :=
  ⟨by decide,
    (ask_question_context_untruncated ["ab".data, "cde".data]
      (fun _ => Except.ok "ans".data) "q".data (by decide)).1⟩

theorem missing_content_key_included_then_filtered_witness :
    (0 < wHits.length ∧
      wHits[0].payload.find? (fun kv => kv.1 == "content".data) = none) ∧
      (wHits.map mkSearchItem)[0]? = some ⟨wHits[0].id, wHits[0].score, []⟩ :=
  ⟨⟨by decide, by decide⟩,
    (missing_content_key_included_then_filtered (EmbedCallOutcome.success [])
      wHits 0 (by decide) (by decide)).2.2.1⟩

end RAG
